import Mathlib

/-!
# Verification of the EV-Guardian streaming classification and audit-logging engine

A shallow embedding of `src/server/stream-engine.ts` (classifier `evaluateReading`,
the `StreamGenerator` state machine: `start`, `stop`, `subscribe`,
`getBlockchainRecords`, `submitToBlockchain`, `tick`) and of the HTTP handlers
`POST /api/check-reading` and `GET /api/blockchain-records` from the server entry
point.  Numbers (JS `number` fields `voltage`, `current`, `energyKWh`) are modelled
as rationals; `Number.prototype.toFixed` is modelled as exact sign-magnitude
round-half-up fixed-point formatting, which agrees with JS on every value appearing
in the claims.  Logging side effects (`logService.broadcast`, `console.log`) and
the fire-and-forget Masumi attestation are dropped: they do not influence any
value the claims mention.
-/

/-- `StreamReading` from `src/shared/types`: one telemetry sample. -/
structure StreamReading where
  timestamp : ℤ
  voltage : ℚ
  current : ℚ
  energyKWh : ℚ
deriving DecidableEq

/-- `InstantStatus = "VALID" | "FRAUD"`. -/
inductive InstantStatus where
  | VALID
  | FRAUD
deriving DecidableEq

/-- `InstantResult {status, anomalyReason?}`. -/
structure InstantResult where
  status : InstantStatus
  anomalyReason : Option String
deriving DecidableEq

/-- Left-pad a string with `'0'` up to length `d` (decimal-fraction rendering). -/
def padZeros (s : String) (d : ℕ) : String :=
  String.mk (List.replicate (d - s.length) '0') ++ s

/-- Render the natural number `n` as a decimal with the last `d` digits after
the point, e.g. `fmtNatFixed 2650 1 = "265.0"`. -/
def fmtNatFixed (n d : ℕ) : String :=
  if d = 0 then Nat.repr n
  else Nat.repr (n / 10 ^ d) ++ "." ++ padZeros (Nat.repr (n % 10 ^ d)) d

/-- `⌊(num / den) * 10 ^ d + 1 / 2⌋` computed on the scaled integer pair: the
magnitude of a rational rounded half-up to `d` decimal digits. -/
def roundHalfUpScaled (num den d : ℕ) : ℕ :=
  (num * 10 ^ d * 2 + den) / (2 * den)

/-- Model of `Number.prototype.toFixed(d)` on exact rationals: extract the sign,
then round the magnitude (`q.num.natAbs / q.den`) to the nearest multiple of
`10^-d`, ties upward. -/
def fmtFixed (q : ℚ) (d : ℕ) : String :=
  if q < 0 then "-" ++ fmtNatFixed (roundHalfUpScaled q.num.natAbs q.den d) d
  else fmtNatFixed (roundHalfUpScaled q.num.natAbs q.den d) d

/-- `evaluateReading` from `src/server/stream-engine.ts` (lines 24–55): the pure
fraud classifier.  Rule order as in the source: voltage low, voltage high,
current negative, current high, energy decrease (the last only when a previous
reading is supplied). -/
def evaluateReading (reading : StreamReading) (previousReading : Option StreamReading) :
    InstantResult :=
  if reading.voltage < 200 then
    { status := .FRAUD,
      anomalyReason := some ("Voltage too low: " ++ fmtFixed reading.voltage 1 ++ "V") }
  else if reading.voltage > 260 then
    { status := .FRAUD,
      anomalyReason := some ("Voltage too high: " ++ fmtFixed reading.voltage 1 ++ "V") }
  else if reading.current < 0 then
    { status := .FRAUD,
      anomalyReason := some ("Current negative: " ++ fmtFixed reading.current 1 ++ "A") }
  else if reading.current > 50 then
    { status := .FRAUD,
      anomalyReason := some ("Current too high: " ++ fmtFixed reading.current 1 ++ "A") }
  else
    match previousReading with
    | some p =>
      if reading.energyKWh < p.energyKWh then
        { status := .FRAUD,
          anomalyReason := some ("Energy decreased: " ++ fmtFixed p.energyKWh 4
            ++ " -> " ++ fmtFixed reading.energyKWh 4) }
      else { status := .VALID, anomalyReason := none }
    | none => { status := .VALID, anomalyReason := none }

/-- The spec's rule list (§4.1), in the spec's order, each rule a guard paired
with its verdict.  Written from the spec's words, to be compared with
`evaluateReading` as translated from the source. -/
def specRuleList (r : StreamReading) (prev : Option StreamReading) :
    List (Bool × InstantResult) :=
  [ (decide (r.voltage < 200),
      ⟨.FRAUD, some ("Voltage too low: " ++ fmtFixed r.voltage 1 ++ "V")⟩),
    (decide (r.voltage > 260),
      ⟨.FRAUD, some ("Voltage too high: " ++ fmtFixed r.voltage 1 ++ "V")⟩),
    (decide (r.current < 0),
      ⟨.FRAUD, some ("Current negative: " ++ fmtFixed r.current 1 ++ "A")⟩),
    (decide (r.current > 50),
      ⟨.FRAUD, some ("Current too high: " ++ fmtFixed r.current 1 ++ "A")⟩),
    (match prev with
     | some p => decide (r.energyKWh < p.energyKWh)
     | none => false,
      ⟨.FRAUD, some ("Energy decreased: "
        ++ (match prev with | some p => fmtFixed p.energyKWh 4 | none => "")
        ++ " -> " ++ fmtFixed r.energyKWh 4)⟩) ]

/-- First-match-wins evaluation of a rule list; no rule fires means VALID with
no reason (§4.1 rule 6). -/
def firstMatch : List (Bool × InstantResult) → InstantResult
  | [] => { status := .VALID, anomalyReason := none }
  | (b, v) :: rest => if b then v else firstMatch rest

/-- The classifier as the spec (§4.1) words it: the fixed rule list evaluated
first-match-wins. -/
def evaluateSpec (r : StreamReading) (prev : Option StreamReading) : InstantResult :=
  firstMatch (specRuleList r prev)

/-- `BlockchainRecord` from `src/shared/types`: one audit-log entry. -/
structure BlockchainRecord where
  id : String
  txHash : String
  timestamp : ℤ
  status : InstantStatus
  anomalyReason : Option String
  reading : StreamReading
  blockNumber : ℕ
  confirmations : ℕ
  isVerified : Bool
deriving DecidableEq

/-- The randomly generated metadata of a record (`nanoid`, `Math.random`-derived
`txHash`, `blockNumber`, `confirmations`): supplied externally to keep the
embedding deterministic. -/
structure RecordMeta where
  id : String
  txHash : String
  blockNumber : ℕ
  confirmations : ℕ
deriving DecidableEq

/-- The record built by `submitToBlockchain` (stream-engine.ts lines 141–151),
before the fire-and-forget Masumi attestation: `isVerified` starts `false`. -/
def mkBlockchainRecord (m : RecordMeta) (reading : StreamReading)
    (result : InstantResult) : BlockchainRecord :=
  { id := m.id, txHash := m.txHash, timestamp := reading.timestamp,
    status := result.status, anomalyReason := result.anomalyReason,
    reading := reading, blockNumber := m.blockNumber,
    confirmations := m.confirmations, isVerified := false }

/-- The log mutation of `submitToBlockchain` (lines 162–167): push the record,
then `shift()` the oldest one away when the length exceeds 1000. -/
def pushBounded (log : List BlockchainRecord) (record : BlockchainRecord) :
    List BlockchainRecord :=
  let l := log ++ [record]
  if 1000 < l.length then l.drop 1 else l

/-- The `stats` object carried by every broadcast `StreamData`. -/
structure StreamStats where
  total : ℕ
  valid : ℕ
  fraud : ℕ
deriving DecidableEq

/-- `StreamData`: the event broadcast to subscribers (`StreamReading` and
`InstantResult` fields flattened, per the TS spread). -/
structure StreamData where
  timestamp : ℤ
  voltage : ℚ
  current : ℚ
  energyKWh : ℚ
  status : InstantStatus
  anomalyReason : Option String
  blockchainRecord : Option BlockchainRecord
  stats : StreamStats
deriving DecidableEq

/-- A subscriber callback; `false` models the callback throwing when invoked
with that event, `true` a normal return. -/
def Subscriber : Type := StreamData → Bool

namespace StreamGenerator

/-- The mutable fields of the `StreamGenerator` class (stream-engine.ts lines
60–81).  `running` stands for `intervalId !== null`; the test-data replay
indices and the generator's own `energyKWh` accumulator belong to the external
reading source and are not part of the verified core. -/
structure State where
  running : Bool
  timestamp : ℕ
  lastReading : Option StreamReading
  blockchainRecords : List BlockchainRecord
  totalReadings : ℕ
  totalValid : ℕ
  totalFraud : ℕ
  subscribers : List Subscriber

/-- The field initializers of the class: stopped, no previous reading, empty
log, zero counters, no subscribers. -/
def initial : State :=
  { running := false, timestamp := 0, lastReading := none,
    blockchainRecords := [], totalReadings := 0, totalValid := 0,
    totalFraud := 0, subscribers := [] }

/-- `start(intervalMs)` (lines 84–105): a no-op while running, otherwise
schedules the tick timer.  Loading the replay file touches only the external
source state; in particular `lastReading` is left untouched. -/
def start (s : State) : State :=
  if s.running then s else { s with running := true }

/-- `stop()` (lines 107–112): clears the timer. -/
def stop (s : State) : State :=
  { s with running := false }

/-- `subscribe(callback)` (lines 114–124): pushes the callback. -/
def subscribe (s : State) (cb : Subscriber) : State :=
  { s with subscribers := s.subscribers ++ [cb] }

/-- `getBlockchainRecords(limit?)` (lines 126–129): reversed copy of the log
(most recent first), truncated by `slice(0, limit)` when `limit` is truthy —
a supplied limit of `0` is falsy in JS and behaves like no limit. -/
def getBlockchainRecords (s : State) (limit : Option ℕ) : List BlockchainRecord :=
  let records := s.blockchainRecords.reverse
  match limit with
  | none => records
  | some n => if n = 0 then records else records.take n

/-- `subscribers.forEach(sub => sub(data))` (line 280): invoke the callbacks in
order; an exception aborts the loop and propagates.  Returns how many callbacks
were invoked (the thrower included) and whether one threw. -/
def notifyAll : List Subscriber → StreamData → ℕ × Bool
  | [], _ => (0, false)
  | cb :: rest, d =>
    if cb d then
      let r := notifyAll rest d
      (r.1 + 1, r.2)
    else (1, true)

/-- Everything one `tick()` call produces: the successor state, the composed
`StreamData` event, how many subscriber callbacks ran, and whether one threw. -/
structure TickOutcome where
  state : State
  emitted : StreamData
  notified : ℕ
  threw : Bool

/-- `tick()` (lines 174–284), with the reading supplied by the external source
as an argument: evaluate against `lastReading`, append to the bounded log,
bump the counters, compose the event, fan it out, and — only if no subscriber
threw — retain the reading as `lastReading` and advance `timestamp`. -/
def tick (s : State) (r : StreamReading) (m : RecordMeta) : TickOutcome :=
  let result := evaluateReading r s.lastReading
  let record := mkBlockchainRecord m r result
  let s2 : State :=
    { s with
      blockchainRecords := pushBounded s.blockchainRecords record,
      totalReadings := s.totalReadings + 1,
      totalValid := if result.status = .VALID then s.totalValid + 1 else s.totalValid,
      totalFraud := if result.status = .VALID then s.totalFraud else s.totalFraud + 1 }
  let data : StreamData :=
    { timestamp := r.timestamp, voltage := r.voltage, current := r.current,
      energyKWh := r.energyKWh, status := result.status,
      anomalyReason := result.anomalyReason, blockchainRecord := some record,
      stats := { total := s2.totalReadings, valid := s2.totalValid,
                 fraud := s2.totalFraud } }
  let n := notifyAll s2.subscribers data
  { state :=
      if n.2 then s2
      else { s2 with lastReading := some r, timestamp := s2.timestamp + 1 },
    emitted := data, notified := n.1, threw := n.2 }

/-- One externally triggered transition of the engine: a lifecycle call, a
subscription, or a timer tick carrying the reading from the source. -/
inductive Action where
  | start
  | stop
  | subscribe (cb : Subscriber)
  | tick (r : StreamReading) (m : RecordMeta)

/-- Apply one action; ticks also emit the broadcast event. -/
def stepAction (s : State) : Action → State × Option StreamData
  | .start => (start s, none)
  | .stop => (stop s, none)
  | .subscribe cb => (subscribe s cb, none)
  | .tick r m =>
    let o := tick s r m
    (o.state, some o.emitted)

/-- Run a whole action trace, collecting the emitted events in order. -/
def runActions (s : State) : List Action → State × List StreamData
  | [] => (s, [])
  | a :: rest =>
    let p := stepAction s a
    let q := runActions p.1 rest
    match p.2 with
    | none => q
    | some ev => (q.1, ev :: q.2)

/-- The number of tick actions in a trace: the readings processed. -/
def countTicks : List Action → ℕ
  | [] => 0
  | .tick _ _ :: rest => countTicks rest + 1
  | _ :: rest => countTicks rest

/-- Index of the first subscriber callback that throws on `d`, if any. -/
def firstThrower : List Subscriber → StreamData → Option ℕ
  | [], _ => none
  | cb :: rest, d =>
    if cb d then (firstThrower rest d).map (fun i => i + 1) else some 0

/-- A trace consisting only of timer ticks, one per source reading. -/
def ticksOf (inputs : List (StreamReading × RecordMeta)) : List Action :=
  inputs.map (fun p => Action.tick p.1 p.2)

/-- The audit records created by a trace, in append order (each tick's event
carries the record just appended). -/
def emittedRecords (s : State) (acts : List Action) : List BlockchainRecord :=
  ((runActions s acts).2).filterMap (fun e => e.blockchainRecord)

end StreamGenerator

/-- The body of `POST /api/check-reading`: either a single reading object or an
array of readings. -/
inductive CheckInput where
  | single (r : StreamReading)
  | array (rs : List StreamReading)

/-- The response of a request/response handler: a JSON verdict, or an error
status code with an `error` body field. -/
inductive CheckResponse where
  | ok (result : InstantResult)
  | err (status : ℕ) (error : String)
deriving DecidableEq

/-- The `POST /api/check-reading` handler (server entry point, lines 232–251):
an empty array is rejected with 400 `{error: "Empty array"}`; a non-empty array
is classified at its last element with the second-to-last (when present) as
previous; a single reading is classified with no previous. -/
def checkReadingHandler : CheckInput → CheckResponse
  | .array rs =>
    match rs.getLast? with
    | none => .err 400 "Empty array"
    | some lastR =>
      .ok (evaluateReading lastR (if 1 < rs.length then rs.get? (rs.length - 2) else none))
  | .single r => .ok (evaluateReading r none)

/-- The JSON body returned by `GET /api/blockchain-records`. -/
structure BlockchainRecordsResponse where
  records : List BlockchainRecord
  total : ℕ
deriving DecidableEq

/-- The `GET /api/blockchain-records` handler (server entry point, lines
257–269): query the engine's log with the optional parsed `limit`, and report
`total` as the length of the list just fetched. -/
def blockchainRecordsHandler (s : StreamGenerator.State) (limit : Option ℕ) :
    BlockchainRecordsResponse :=
  let records := StreamGenerator.getBlockchainRecords s limit
  { records := records, total := records.length }

/-- C5: fraud reason strings carry one decimal place for voltage/current and
four for energies: the two concrete scenarios of the spec, character for
character. -/
theorem claim_C5_reason_formatting :
    evaluateReading ⟨0, 230, 10, mkRat 1 100⟩ (some ⟨0, 230, 10, mkRat 1 50⟩) =
      ⟨.FRAUD, some "Energy decreased: 0.0200 -> 0.0100"⟩ ∧
    evaluateReading ⟨0, 265, 10, mkRat 1 50⟩ none =
      ⟨.FRAUD, some "Voltage too high: 265.0V"⟩ :=
  ⟨by decide, by decide⟩

/-- C10: the direct-check handler rejects an empty array with 400
`{error: "Empty array"}`; a non-empty array is classified at its last element
with the second-to-last (if present) as previous; a single reading is
classified with no previous. -/
theorem claim_C10_check_reading_handler :
    checkReadingHandler (.array []) = .err 400 "Empty array" ∧
    (∀ (rs : List StreamReading) (r : StreamReading),
      checkReadingHandler (.array (rs ++ [r])) = .ok (evaluateReading r rs.getLast?)) ∧
    (∀ r : StreamReading, checkReadingHandler (.single r) = .ok (evaluateReading r none)) := by
  refine ⟨rfl, ?_, fun r => rfl⟩
  intro rs r
  simp only [checkReadingHandler, List.getLast?_concat]
  have hprev :
      (if 1 < (rs ++ [r]).length then (rs ++ [r]).get? ((rs ++ [r]).length - 2) else none)
        = rs.getLast? := by
    cases rs with
    | nil => simp
    | cons a as =>
      have hlen : (a :: as ++ [r]).length = as.length + 2 := by simp
      rw [if_pos (by omega)]
      rw [hlen]
      have hidx : as.length + 2 - 2 = as.length := by omega
      rw [hidx, List.get?_eq_getElem?,
        List.getElem?_append_left (by simp), List.getLast?_eq_getElem?]
      simp
  rw [hprev]

/-- C1: the classifier is the spec's fixed rule list evaluated first-match-wins,
and in particular a reading with high voltage and negative current draws the
voltage-high reason. -/
theorem claim_C1_rule_order :
    (∀ (r : StreamReading) (prev : Option StreamReading),
      evaluateReading r prev = evaluateSpec r prev) ∧
    (∀ (r : StreamReading) (prev : Option StreamReading),
      260 < r.voltage → r.current < 0 →
      evaluateReading r prev =
        ⟨.FRAUD, some ("Voltage too high: " ++ fmtFixed r.voltage 1 ++ "V")⟩) := by
  constructor
  · intro r prev
    cases prev <;>
      simp only [evaluateReading, evaluateSpec, specRuleList, firstMatch,
        decide_eq_true_eq, gt_iff_lt] <;>
      split_ifs <;> first | rfl | contradiction
  · intro r prev h1 h2
    unfold evaluateReading
    rw [if_neg (by intro h; exact absurd h1 (by linarith)), if_pos h1]

/-- Closed instance of C1 at voltage 270, current -5. -/
theorem claim_C1_rule_order_witness :
    260 < (270 : ℚ) ∧ (-5 : ℚ) < 0 ∧
    evaluateReading ⟨0, 270, -5, 0⟩ none =
      ⟨.FRAUD, some ("Voltage too high: " ++ fmtFixed (270 : ℚ) 1 ++ "V")⟩ :=
  ⟨by decide, by decide,
    claim_C1_rule_order.2 ⟨0, 270, -5, 0⟩ none (by decide) (by decide)⟩

/-- C2: an in-range reading with no previous, or whose cumulative energy did
not decrease, is VALID with no reason. -/
theorem claim_C2_valid_range :
    ∀ (r : StreamReading) (prev : Option StreamReading),
      200 ≤ r.voltage → r.voltage ≤ 260 → 0 ≤ r.current → r.current ≤ 50 →
      (prev = none ∨ ∃ p, prev = some p ∧ p.energyKWh ≤ r.energyKWh) →
      evaluateReading r prev = ⟨.VALID, none⟩ := by
  intro r prev h1 h2 h3 h4 h5
  unfold evaluateReading
  rw [if_neg (not_lt.mpr h1), if_neg (not_lt.mpr h2), if_neg (not_lt.mpr h3),
    if_neg (not_lt.mpr h4)]
  rcases h5 with h | ⟨p, hp, hle⟩
  · rw [h]
  · rw [hp]
    simp only [if_neg (not_lt.mpr hle)]

/-- Closed instance of C2: a first reading at 230 V, 10 A is VALID. -/
theorem claim_C2_valid_range_witness :
    (200 : ℚ) ≤ 230 ∧ (230 : ℚ) ≤ 260 ∧ (0 : ℚ) ≤ 10 ∧ (10 : ℚ) ≤ 50 ∧
    evaluateReading ⟨0, 230, 10, 0⟩ none = ⟨.VALID, none⟩ :=
  ⟨by decide, by decide, by decide, by decide,
    claim_C2_valid_range ⟨0, 230, 10, 0⟩ none (by decide) (by decide) (by decide)
      (by decide) (Or.inl rfl)⟩

/-- C6 is false on the code: `start()` does not reset `lastReading`, so after
stop → start the first tick is still compared against the last reading produced
before the stop.  Concretely, a restart followed by an in-range reading whose
energy is below the pre-stop reading's yields FRAUD, while classification with
no previous reading would yield VALID. -/
theorem claim_C6_counterexample :
    ((StreamGenerator.runActions StreamGenerator.initial
      [.start, .tick ⟨0, 230, 10, mkRat 1 50⟩ ⟨"a", "t1", 5000000, 1⟩,
       .stop, .start, .tick ⟨1, 230, 10, mkRat 1 100⟩ ⟨"b", "t2", 5000001, 2⟩]).2.map
        (fun e => e.status)) = [.VALID, .FRAUD] ∧
    evaluateReading ⟨1, 230, 10, mkRat 1 100⟩ none = ⟨.VALID, none⟩ :=
  ⟨by decide, by decide⟩

/-- C6 amended: the remembered previous reading survives stop/start untouched —
it is none only at construction; the first tick after a restart is classified
against the reading retained from before the stop. -/
theorem claim_C6_amended (s : StreamGenerator.State) (r : StreamReading)
    (m : RecordMeta) :
    (StreamGenerator.start (StreamGenerator.stop s)).lastReading = s.lastReading ∧
    (StreamGenerator.tick (StreamGenerator.start (StreamGenerator.stop s)) r m).emitted.status
      = (evaluateReading r s.lastReading).status ∧
    (StreamGenerator.tick (StreamGenerator.start (StreamGenerator.stop s)) r m).emitted.anomalyReason
      = (evaluateReading r s.lastReading).anomalyReason ∧
    StreamGenerator.initial.lastReading = none :=
  ⟨rfl, rfl, rfl, rfl⟩

/-- C7 is false on the code: with two records held and `limit = 1`, the
records endpoint reports `total = 1` — the count of records returned in the
truncated response — while the log holds 2 records. -/
theorem claim_C7_counterexample :
    (blockchainRecordsHandler
      (StreamGenerator.runActions StreamGenerator.initial
        [.tick ⟨0, 230, 10, mkRat 1 50⟩ ⟨"a", "t1", 5000000, 1⟩,
         .tick ⟨1, 230, 10, mkRat 1 25⟩ ⟨"b", "t2", 5000001, 2⟩]).1 (some 1)).total = 1 ∧
    ((StreamGenerator.runActions StreamGenerator.initial
        [.tick ⟨0, 230, 10, mkRat 1 50⟩ ⟨"a", "t1", 5000000, 1⟩,
         .tick ⟨1, 230, 10, mkRat 1 25⟩ ⟨"b", "t2", 5000001, 2⟩]).1.blockchainRecords).length = 2 ∧
    (1 : ℕ) ≠ 2 :=
  ⟨by decide, by decide, by decide⟩

/-- C7 amended: `total` equals the number of records returned in this response
(the length of the possibly limit-truncated list); it equals the count of
records currently held only when no limit is supplied, the limit is 0, or the
limit is at least the held count (total = min limit held for positive limits). -/
theorem claim_C7_amended (s : StreamGenerator.State) (limit : Option ℕ) :
    (blockchainRecordsHandler s limit).total
      = (blockchainRecordsHandler s limit).records.length ∧
    (blockchainRecordsHandler s none).total = s.blockchainRecords.length ∧
    (∀ n, 0 < n →
      (blockchainRecordsHandler s (some n)).total = min n s.blockchainRecords.length) ∧
    (blockchainRecordsHandler s (some 0)).total = s.blockchainRecords.length := by
  refine ⟨rfl, by simp [blockchainRecordsHandler, StreamGenerator.getBlockchainRecords],
    ?_, by simp [blockchainRecordsHandler, StreamGenerator.getBlockchainRecords]⟩
  intro n hn
  simp [blockchainRecordsHandler, StreamGenerator.getBlockchainRecords,
    Nat.pos_iff_ne_zero.mp hn]

/-- Closed instance of C7 amended at the empty log and limit 1. -/
theorem claim_C7_amended_witness :
    0 < 1 ∧ (blockchainRecordsHandler StreamGenerator.initial (some 1)).total
      = min 1 StreamGenerator.initial.blockchainRecords.length :=
  ⟨by decide, (claim_C7_amended StreamGenerator.initial (some 1)).2.2.1 1 (by decide)⟩

/-- C8 is false on the code at `limit = 0`: `limit ? … : …` treats 0 as falsy,
so `query(0)` returns the whole log (here 1 record) instead of
`min(0, held) = 0` records. -/
theorem claim_C8_counterexample :
    (StreamGenerator.getBlockchainRecords
      (StreamGenerator.runActions StreamGenerator.initial
        [.tick ⟨0, 230, 10, mkRat 1 50⟩ ⟨"a", "t1", 5000000, 1⟩]).1 (some 0)).length = 1 ∧
    (StreamGenerator.getBlockchainRecords
      (StreamGenerator.runActions StreamGenerator.initial
        [.tick ⟨0, 230, 10, mkRat 1 50⟩ ⟨"a", "t1", 5000000, 1⟩]).1 (some 0)).length
      ≠ min 0 ((StreamGenerator.runActions StreamGenerator.initial
        [.tick ⟨0, 230, 10, mkRat 1 50⟩ ⟨"a", "t1", 5000000, 1⟩]).1.blockchainRecords).length :=
  ⟨by decide, by decide⟩

/-- C8 amended: for every positive limit `n`, the query returns the first `n`
records of the reversed log — at most `n`, most-recent-first, from the most
recent end, with result length `min n held` — while a supplied limit of 0 is
treated as no limit and returns the entire reversed log. -/
theorem claim_C8_amended (s : StreamGenerator.State) (n : ℕ) :
    (0 < n →
      StreamGenerator.getBlockchainRecords s (some n)
        = s.blockchainRecords.reverse.take n ∧
      (StreamGenerator.getBlockchainRecords s (some n)).length
        = min n s.blockchainRecords.length) ∧
    StreamGenerator.getBlockchainRecords s (some 0) = s.blockchainRecords.reverse ∧
    StreamGenerator.getBlockchainRecords s none = s.blockchainRecords.reverse := by
  refine ⟨?_, by simp [StreamGenerator.getBlockchainRecords], rfl⟩
  intro hn
  constructor
  · simp [StreamGenerator.getBlockchainRecords, Nat.pos_iff_ne_zero.mp hn]
  · simp [StreamGenerator.getBlockchainRecords, Nat.pos_iff_ne_zero.mp hn]

/-- Closed instance of C8 amended: a one-record log queried with limit 1. -/
theorem claim_C8_amended_witness :
    0 < 1 ∧
    (StreamGenerator.getBlockchainRecords
      (StreamGenerator.runActions StreamGenerator.initial
        [.tick ⟨0, 230, 10, mkRat 1 100⟩ ⟨"c", "t3", 5000002, 3⟩]).1 (some 1)).length
      = min 1 ((StreamGenerator.runActions StreamGenerator.initial
        [.tick ⟨0, 230, 10, mkRat 1 100⟩ ⟨"c", "t3", 5000002, 3⟩]).1.blockchainRecords).length :=
  ⟨by decide,
    ((claim_C8_amended
      (StreamGenerator.runActions StreamGenerator.initial
        [.tick ⟨0, 230, 10, mkRat 1 100⟩ ⟨"c", "t3", 5000002, 3⟩]).1 1).1 (by decide)).2⟩

/-- When no subscriber callback throws on `d`, the fan-out loop invokes all of
them and no exception escapes. -/
theorem notifyAll_of_firstThrower_none (d : StreamData) :
    ∀ subs : List Subscriber, StreamGenerator.firstThrower subs d = none →
      StreamGenerator.notifyAll subs d = (subs.length, false)
  | [], _ => rfl
  | cb :: rest, h => by
    simp only [StreamGenerator.firstThrower] at h
    by_cases hcb : cb d
    · rw [if_pos hcb] at h
      have hrest := notifyAll_of_firstThrower_none d rest (Option.map_eq_none'.mp h)
      simp [StreamGenerator.notifyAll, hcb, hrest]
    · rw [if_neg hcb] at h
      exact absurd h (by simp)

/-- When the first throwing subscriber sits at index `i`, the fan-out loop
invokes exactly the callbacks up to and including it and the exception
escapes. -/
theorem notifyAll_of_firstThrower_some (d : StreamData) :
    ∀ (subs : List Subscriber) (i : ℕ), StreamGenerator.firstThrower subs d = some i →
      StreamGenerator.notifyAll subs d = (i + 1, true)
  | [], i, h => by simp [StreamGenerator.firstThrower] at h
  | cb :: rest, i, h => by
    simp only [StreamGenerator.firstThrower] at h
    by_cases hcb : cb d
    · rw [if_pos hcb] at h
      rcases Option.map_eq_some'.mp h with ⟨j, hj, hji⟩
      have hrest := notifyAll_of_firstThrower_some d rest j hj
      subst hji
      simp [StreamGenerator.notifyAll, hcb, hrest]
    · rw [if_neg hcb] at h
      injection h with h0
      subst h0
      simp [StreamGenerator.notifyAll, hcb]

/-- A tick whose fan-out threw leaves `lastReading` and the tick counter
untouched (the exception aborts the remainder of `tick()`). -/
theorem tick_threw_state (s : StreamGenerator.State) (r : StreamReading)
    (m : RecordMeta) (h : (StreamGenerator.tick s r m).threw = true) :
    (StreamGenerator.tick s r m).state.lastReading = s.lastReading ∧
    (StreamGenerator.tick s r m).state.timestamp = s.timestamp := by
  simp only [StreamGenerator.tick] at h ⊢
  rw [h]
  exact ⟨rfl, rfl⟩

/-- A tick whose fan-out completed retains the reading as `lastReading` and
advances the tick counter. -/
theorem tick_completed_state (s : StreamGenerator.State) (r : StreamReading)
    (m : RecordMeta) (h : (StreamGenerator.tick s r m).threw = false) :
    (StreamGenerator.tick s r m).state.lastReading = some r ∧
    (StreamGenerator.tick s r m).state.timestamp = s.timestamp + 1 := by
  simp only [StreamGenerator.tick] at h ⊢
  rw [h]
  exact ⟨rfl, rfl⟩

/-- C9 is false on the code: `subscribers.forEach(sub => sub(data))` has no
per-consumer isolation, so with two subscribers of which the first throws,
only one callback is ever invoked (the second never receives the event) and
the exception aborts `tick()` before `lastReading` is updated, affecting the
next tick's classification state. -/
theorem claim_C9_counterexample :
    (StreamGenerator.tick
      (StreamGenerator.subscribe
        (StreamGenerator.subscribe StreamGenerator.initial (fun _ => false))
        (fun _ => true))
      ⟨0, 230, 10, mkRat 1 50⟩ ⟨"a", "t1", 5000000, 1⟩).notified = 1 ∧
    (StreamGenerator.subscribe
      (StreamGenerator.subscribe StreamGenerator.initial (fun _ => false))
      (fun _ => true)).subscribers.length = 2 ∧
    (StreamGenerator.tick
      (StreamGenerator.subscribe
        (StreamGenerator.subscribe StreamGenerator.initial (fun _ => false))
        (fun _ => true))
      ⟨0, 230, 10, mkRat 1 50⟩ ⟨"a", "t1", 5000000, 1⟩).state.lastReading = none ∧
    (StreamGenerator.tick
      (StreamGenerator.subscribe
        (StreamGenerator.subscribe StreamGenerator.initial (fun _ => false))
        (fun _ => true))
      ⟨0, 230, 10, mkRat 1 50⟩ ⟨"a", "t1", 5000000, 1⟩).threw = true :=
  ⟨by decide, by decide, by decide, by decide⟩

/-- C9 amended: a throwing subscriber cannot affect the audit log or the
counters (they are updated before fan-out), but it aborts delivery — the
subscribers registered after the first thrower are never invoked for that
event — and it prevents the update of the driver's `lastReading` and tick
counter for that tick.  When no subscriber throws, every subscriber is
invoked and the state is fully updated. -/
theorem claim_C9_amended (s : StreamGenerator.State) (r : StreamReading)
    (m : RecordMeta) :
    (StreamGenerator.tick s r m).state.blockchainRecords
      = pushBounded s.blockchainRecords
          (mkBlockchainRecord m r (evaluateReading r s.lastReading)) ∧
    (StreamGenerator.tick s r m).state.totalReadings = s.totalReadings + 1 ∧
    (StreamGenerator.tick s r m).state.totalValid
        + (StreamGenerator.tick s r m).state.totalFraud
      = s.totalValid + s.totalFraud + 1 ∧
    (StreamGenerator.tick s r m).state.subscribers = s.subscribers ∧
    (StreamGenerator.firstThrower s.subscribers (StreamGenerator.tick s r m).emitted = none →
      (StreamGenerator.tick s r m).threw = false ∧
      (StreamGenerator.tick s r m).notified = s.subscribers.length ∧
      (StreamGenerator.tick s r m).state.lastReading = some r ∧
      (StreamGenerator.tick s r m).state.timestamp = s.timestamp + 1) ∧
    (∀ i, StreamGenerator.firstThrower s.subscribers (StreamGenerator.tick s r m).emitted
        = some i →
      (StreamGenerator.tick s r m).threw = true ∧
      (StreamGenerator.tick s r m).notified = i + 1 ∧
      (StreamGenerator.tick s r m).state.lastReading = s.lastReading ∧
      (StreamGenerator.tick s r m).state.timestamp = s.timestamp) := by
  refine ⟨?_, ?_, ?_, ?_, ?_, ?_⟩
  · simp only [StreamGenerator.tick]
    split_ifs <;> rfl
  · simp only [StreamGenerator.tick]
    split_ifs <;> rfl
  · simp only [StreamGenerator.tick]
    split_ifs <;> simp <;> omega
  · simp only [StreamGenerator.tick]
    split_ifs <;> rfl
  · intro h
    have hn := notifyAll_of_firstThrower_none _ _ h
    have hthrew : (StreamGenerator.tick s r m).threw
        = (StreamGenerator.notifyAll s.subscribers
            (StreamGenerator.tick s r m).emitted).2 := rfl
    have hnot : (StreamGenerator.tick s r m).notified
        = (StreamGenerator.notifyAll s.subscribers
            (StreamGenerator.tick s r m).emitted).1 := rfl
    have hf : (StreamGenerator.tick s r m).threw = false := by rw [hthrew, hn]
    rcases tick_completed_state s r m hf with ⟨h1, h2⟩
    exact ⟨hf, by rw [hnot, hn], h1, h2⟩
  · intro i h
    have hn := notifyAll_of_firstThrower_some _ _ i h
    have hthrew : (StreamGenerator.tick s r m).threw
        = (StreamGenerator.notifyAll s.subscribers
            (StreamGenerator.tick s r m).emitted).2 := rfl
    have hnot : (StreamGenerator.tick s r m).notified
        = (StreamGenerator.notifyAll s.subscribers
            (StreamGenerator.tick s r m).emitted).1 := rfl
    have ht : (StreamGenerator.tick s r m).threw = true := by rw [hthrew, hn]
    rcases tick_threw_state s r m ht with ⟨h1, h2⟩
    exact ⟨ht, by rw [hnot, hn], h1, h2⟩

/-- Closed instance of C9 amended: the first of two subscribers throws. -/
theorem claim_C9_amended_witness :
    StreamGenerator.firstThrower
      (StreamGenerator.subscribe
        (StreamGenerator.subscribe StreamGenerator.initial (fun _ => false))
        (fun _ => true)).subscribers
      ((StreamGenerator.tick
        (StreamGenerator.subscribe
          (StreamGenerator.subscribe StreamGenerator.initial (fun _ => false))
          (fun _ => true))
        ⟨1, 231, 9, mkRat 1 40⟩ ⟨"b", "t2", 5000001, 2⟩).emitted) = some 0 ∧
    ((StreamGenerator.tick
        (StreamGenerator.subscribe
          (StreamGenerator.subscribe StreamGenerator.initial (fun _ => false))
          (fun _ => true))
        ⟨1, 231, 9, mkRat 1 40⟩ ⟨"b", "t2", 5000001, 2⟩).threw = true ∧
      (StreamGenerator.tick
        (StreamGenerator.subscribe
          (StreamGenerator.subscribe StreamGenerator.initial (fun _ => false))
          (fun _ => true))
        ⟨1, 231, 9, mkRat 1 40⟩ ⟨"b", "t2", 5000001, 2⟩).notified = 0 + 1 ∧
      (StreamGenerator.tick
        (StreamGenerator.subscribe
          (StreamGenerator.subscribe StreamGenerator.initial (fun _ => false))
          (fun _ => true))
        ⟨1, 231, 9, mkRat 1 40⟩ ⟨"b", "t2", 5000001, 2⟩).state.lastReading
        = (StreamGenerator.subscribe
            (StreamGenerator.subscribe StreamGenerator.initial (fun _ => false))
            (fun _ => true)).lastReading ∧
      (StreamGenerator.tick
        (StreamGenerator.subscribe
          (StreamGenerator.subscribe StreamGenerator.initial (fun _ => false))
          (fun _ => true))
        ⟨1, 231, 9, mkRat 1 40⟩ ⟨"b", "t2", 5000001, 2⟩).state.timestamp
        = (StreamGenerator.subscribe
            (StreamGenerator.subscribe StreamGenerator.initial (fun _ => false))
            (fun _ => true)).timestamp) :=
  ⟨by decide,
    (claim_C9_amended
      (StreamGenerator.subscribe
        (StreamGenerator.subscribe StreamGenerator.initial (fun _ => false))
        (fun _ => true))
      ⟨1, 231, 9, mkRat 1 40⟩ ⟨"b", "t2", 5000001, 2⟩).2.2.2.2.2 0 (by decide)⟩

/-- The bounded push never leaves the log above capacity. -/
theorem pushBounded_length_le (log : List BlockchainRecord) (record : BlockchainRecord)
    (h : log.length ≤ 1000) : (pushBounded log record).length ≤ 1000 := by
  simp only [pushBounded]
  split_ifs with h1 <;> simp_all

/-- Folding the bounded push over any batch keeps exactly the most recent 1000
entries of the concatenation: the result is the concatenation with its oldest
overflow dropped. -/
theorem foldl_pushBounded (recs : List BlockchainRecord) :
    ∀ log : List BlockchainRecord, log.length ≤ 1000 →
      List.foldl pushBounded log recs
        = (log ++ recs).drop (log.length + recs.length - 1000) := by
  induction recs with
  | nil =>
    intro log h
    have h0 : log.length + ([] : List BlockchainRecord).length - 1000 = 0 := by
      simp only [List.length_nil, Nat.add_zero]
      omega
    rw [h0, List.drop_zero, List.append_nil, List.foldl_nil]
  | cons record rest ih =>
    intro log h
    rw [List.foldl_cons]
    by_cases hlen : log.length < 1000
    · have hp : pushBounded log record = log ++ [record] := by
        simp only [pushBounded]
        rw [if_neg (by simp only [List.length_append, List.length_cons, List.length_nil]; omega)]
      rw [hp, ih (log ++ [record])
        (by simp only [List.length_append, List.length_cons, List.length_nil]; omega)]
      have he : (log ++ [record]) ++ rest = log ++ record :: rest := by simp
      have hn : (log ++ [record]).length + rest.length - 1000
          = log.length + (record :: rest).length - 1000 := by
        simp only [List.length_append, List.length_cons, List.length_nil]
        omega
      rw [he, hn]
    · have hl : log.length = 1000 := by omega
      have hp : pushBounded log record = (log ++ [record]).drop 1 := by
        simp only [pushBounded]
        rw [if_pos (by simp only [List.length_append, List.length_cons, List.length_nil]; omega)]
      have hlen2 : ((log ++ [record]).drop 1).length ≤ 1000 := by
        simp only [List.length_drop, List.length_append, List.length_cons, List.length_nil]
        omega
      rw [hp, ih _ hlen2]
      rw [← List.drop_append_of_le_length
        (by simp only [List.length_append, List.length_cons, List.length_nil]; omega),
        List.drop_drop]
      have he : (log ++ [record]) ++ rest = log ++ record :: rest := by simp
      have hn : 1 + (((log ++ [record]).drop 1).length + rest.length - 1000)
          = log.length + (record :: rest).length - 1000 := by
        simp only [List.length_drop, List.length_append, List.length_cons, List.length_nil]
        omega
      rw [he, hn]

/-- A tick appends exactly one record — the one built from the reading and the
verdict against the retained previous reading — via the bounded push. -/
theorem tick_log (s : StreamGenerator.State) (r : StreamReading) (m : RecordMeta) :
    (StreamGenerator.tick s r m).state.blockchainRecords
      = pushBounded s.blockchainRecords
          (mkBlockchainRecord m r (evaluateReading r s.lastReading)) := by
  simp only [StreamGenerator.tick]
  split_ifs <;> rfl

/-- The event a tick emits carries the record just appended. -/
theorem tick_emitted_record (s : StreamGenerator.State) (r : StreamReading)
    (m : RecordMeta) :
    (StreamGenerator.tick s r m).emitted.blockchainRecord
      = some (mkBlockchainRecord m r (evaluateReading r s.lastReading)) := rfl

/-- Counter update of one tick: total always increments; valid or fraud
increments according to the verdict. -/
theorem tick_counters (s : StreamGenerator.State) (r : StreamReading)
    (m : RecordMeta) :
    (StreamGenerator.tick s r m).state.totalReadings = s.totalReadings + 1 ∧
    (StreamGenerator.tick s r m).state.totalValid
      = (if (evaluateReading r s.lastReading).status = .VALID
          then s.totalValid + 1 else s.totalValid) ∧
    (StreamGenerator.tick s r m).state.totalFraud
      = (if (evaluateReading r s.lastReading).status = .VALID
          then s.totalFraud else s.totalFraud + 1) := by
  simp only [StreamGenerator.tick]
  split_ifs <;> exact ⟨rfl, rfl, rfl⟩

/-- The stats snapshot in the emitted event equals the counters right after
this tick's update, and the event's status is the verdict's. -/
theorem tick_stats (s : StreamGenerator.State) (r : StreamReading) (m : RecordMeta) :
    (StreamGenerator.tick s r m).emitted.stats.total = s.totalReadings + 1 ∧
    (StreamGenerator.tick s r m).emitted.stats.valid
      = (if (evaluateReading r s.lastReading).status = .VALID
          then s.totalValid + 1 else s.totalValid) ∧
    (StreamGenerator.tick s r m).emitted.stats.fraud
      = (if (evaluateReading r s.lastReading).status = .VALID
          then s.totalFraud else s.totalFraud + 1) ∧
    (StreamGenerator.tick s r m).emitted.status = (evaluateReading r s.lastReading).status :=
  ⟨rfl, rfl, rfl, rfl⟩

/-- A tick-only trace has as many tick actions as source readings. -/
theorem countTicks_ticksOf (inputs : List (StreamReading × RecordMeta)) :
    StreamGenerator.countTicks (StreamGenerator.ticksOf inputs) = inputs.length := by
  induction inputs with
  | nil => rfl
  | cons p rest ih => simp [StreamGenerator.ticksOf, StreamGenerator.countTicks] at ih ⊢; omega

/-- Unfolding: a start action only changes the timer flag, emits nothing. -/
theorem runActions_start_cons (s : StreamGenerator.State) (rest : List StreamGenerator.Action) :
    StreamGenerator.runActions s (.start :: rest)
      = StreamGenerator.runActions (StreamGenerator.start s) rest := rfl

/-- Unfolding: a stop action only changes the timer flag, emits nothing. -/
theorem runActions_stop_cons (s : StreamGenerator.State) (rest : List StreamGenerator.Action) :
    StreamGenerator.runActions s (.stop :: rest)
      = StreamGenerator.runActions (StreamGenerator.stop s) rest := rfl

/-- Unfolding: a subscribe action only extends the callback list, emits
nothing. -/
theorem runActions_subscribe_cons (s : StreamGenerator.State) (cb : Subscriber)
    (rest : List StreamGenerator.Action) :
    StreamGenerator.runActions s (.subscribe cb :: rest)
      = StreamGenerator.runActions (StreamGenerator.subscribe s cb) rest := rfl

/-- Unfolding: a tick action advances the state through `tick` and prepends
the emitted event. -/
theorem runActions_tick_cons (s : StreamGenerator.State) (r : StreamReading)
    (m : RecordMeta) (rest : List StreamGenerator.Action) :
    StreamGenerator.runActions s (.tick r m :: rest)
      = ((StreamGenerator.runActions (StreamGenerator.tick s r m).state rest).1,
         (StreamGenerator.tick s r m).emitted
           :: (StreamGenerator.runActions (StreamGenerator.tick s r m).state rest).2) := rfl

/-- `start` touches no field but the timer flag. -/
theorem start_fields (s : StreamGenerator.State) :
    (StreamGenerator.start s).blockchainRecords = s.blockchainRecords ∧
    (StreamGenerator.start s).totalReadings = s.totalReadings ∧
    (StreamGenerator.start s).totalValid = s.totalValid ∧
    (StreamGenerator.start s).totalFraud = s.totalFraud := by
  simp only [StreamGenerator.start]
  split_ifs <;> exact ⟨rfl, rfl, rfl, rfl⟩

/-- The audit log after a trace is the bounded-push fold of all records the
trace appended. -/
theorem runActions_log (acts : List StreamGenerator.Action) :
    ∀ s : StreamGenerator.State,
      (StreamGenerator.runActions s acts).1.blockchainRecords
        = List.foldl pushBounded s.blockchainRecords
            (StreamGenerator.emittedRecords s acts) := by
  induction acts with
  | nil => intro s; rfl
  | cons a rest ih =>
    intro s
    cases a with
    | start =>
      have h1 : StreamGenerator.emittedRecords s (.start :: rest)
          = StreamGenerator.emittedRecords (StreamGenerator.start s) rest := rfl
      rw [runActions_start_cons, h1, ih, (start_fields s).1]
    | stop =>
      have h1 : StreamGenerator.emittedRecords s (.stop :: rest)
          = StreamGenerator.emittedRecords (StreamGenerator.stop s) rest := rfl
      rw [runActions_stop_cons, h1, ih]
      rfl
    | subscribe cb =>
      have h1 : StreamGenerator.emittedRecords s (.subscribe cb :: rest)
          = StreamGenerator.emittedRecords (StreamGenerator.subscribe s cb) rest := rfl
      rw [runActions_subscribe_cons, h1, ih]
      rfl
    | tick r m =>
      have h1 : StreamGenerator.emittedRecords s (.tick r m :: rest)
          = mkBlockchainRecord m r (evaluateReading r s.lastReading)
            :: StreamGenerator.emittedRecords (StreamGenerator.tick s r m).state rest := by
        simp only [StreamGenerator.emittedRecords, runActions_tick_cons]
        rw [List.filterMap_cons_some (tick_emitted_record s r m)]
      rw [runActions_tick_cons, h1, List.foldl_cons]
      show (StreamGenerator.runActions (StreamGenerator.tick s r m).state rest).1.blockchainRecords = _
      rw [ih, tick_log]

/-- Each tick contributes exactly one appended record. -/
theorem emittedRecords_length (acts : List StreamGenerator.Action) :
    ∀ s : StreamGenerator.State,
      (StreamGenerator.emittedRecords s acts).length = StreamGenerator.countTicks acts := by
  induction acts with
  | nil => intro s; rfl
  | cons a rest ih =>
    intro s
    cases a with
    | start => exact ih (StreamGenerator.start s)
    | stop => exact ih (StreamGenerator.stop s)
    | subscribe cb => exact ih (StreamGenerator.subscribe s cb)
    | tick r m =>
      have h1 : StreamGenerator.emittedRecords s (.tick r m :: rest)
          = mkBlockchainRecord m r (evaluateReading r s.lastReading)
            :: StreamGenerator.emittedRecords (StreamGenerator.tick s r m).state rest := by
        simp only [StreamGenerator.emittedRecords, runActions_tick_cons]
        rw [List.filterMap_cons_some (tick_emitted_record s r m)]
      rw [h1, List.length_cons, ih]
      rfl

/-- Counters over a whole trace: total advances by the number of ticks; valid
and fraud advance by the number of emitted events carrying that verdict. -/
theorem runActions_counters (acts : List StreamGenerator.Action) :
    ∀ s : StreamGenerator.State,
      (StreamGenerator.runActions s acts).1.totalReadings
        = s.totalReadings + StreamGenerator.countTicks acts ∧
      (StreamGenerator.runActions s acts).1.totalValid
        = s.totalValid + (StreamGenerator.runActions s acts).2.countP
            (fun ev => decide (ev.status = InstantStatus.VALID)) ∧
      (StreamGenerator.runActions s acts).1.totalFraud
        = s.totalFraud + (StreamGenerator.runActions s acts).2.countP
            (fun ev => decide (ev.status = InstantStatus.FRAUD)) := by
  induction acts with
  | nil => intro s; exact ⟨rfl, rfl, rfl⟩
  | cons a rest ih =>
    intro s
    cases a with
    | start =>
      rcases start_fields s with ⟨_, h2, h3, h4⟩
      rcases ih (StreamGenerator.start s) with ⟨i1, i2, i3⟩
      rw [runActions_start_cons]
      refine ⟨?_, ?_, ?_⟩
      · rw [i1, h2]; rfl
      · rw [i2, h3]
      · rw [i3, h4]
    | stop =>
      rcases ih (StreamGenerator.stop s) with ⟨i1, i2, i3⟩
      rw [runActions_stop_cons]
      exact ⟨by rw [i1]; rfl, by rw [i2]; rfl, by rw [i3]; rfl⟩
    | subscribe cb =>
      rcases ih (StreamGenerator.subscribe s cb) with ⟨i1, i2, i3⟩
      rw [runActions_subscribe_cons]
      exact ⟨by rw [i1]; rfl, by rw [i2]; rfl, by rw [i3]; rfl⟩
    | tick r m =>
      rcases ih (StreamGenerator.tick s r m).state with ⟨i1, i2, i3⟩
      rcases tick_counters s r m with ⟨c1, c2, c3⟩
      rcases tick_stats s r m with ⟨_, _, _, c4⟩
      rw [runActions_tick_cons]
      refine ⟨?_, ?_, ?_⟩
      · show (StreamGenerator.runActions (StreamGenerator.tick s r m).state rest).1.totalReadings = _
        rw [i1, c1]
        have : StreamGenerator.countTicks (.tick r m :: rest)
            = StreamGenerator.countTicks rest + 1 := rfl
        rw [this]
        omega
      · show (StreamGenerator.runActions (StreamGenerator.tick s r m).state rest).1.totalValid = _
        rw [i2, c2, List.countP_cons, c4]
        by_cases hv : (evaluateReading r s.lastReading).status = InstantStatus.VALID <;>
          simp [hv] <;> omega
      · show (StreamGenerator.runActions (StreamGenerator.tick s r m).state rest).1.totalFraud = _
        rw [i3, c3, List.countP_cons, c4]
        by_cases hv : (evaluateReading r s.lastReading).status = InstantStatus.VALID
        · have hf : (evaluateReading r s.lastReading).status ≠ InstantStatus.FRAUD := by
            rw [hv]; intro hc; cases hc
          simp [hv, hf]
        · have hf : (evaluateReading r s.lastReading).status = InstantStatus.FRAUD := by
            cases h : (evaluateReading r s.lastReading).status
            · exact absurd h hv
            · rfl
          simp [hv, hf]
          omega

/-- Every event emitted along a trace carries a consistent stats snapshot,
provided the counters were consistent at the trace's start. -/
theorem runActions_stats (acts : List StreamGenerator.Action) :
    ∀ s : StreamGenerator.State, s.totalReadings = s.totalValid + s.totalFraud →
      ∀ ev ∈ (StreamGenerator.runActions s acts).2,
        ev.stats.total = ev.stats.valid + ev.stats.fraud := by
  induction acts with
  | nil => intro s _ ev hev; simp [StreamGenerator.runActions] at hev
  | cons a rest ih =>
    intro s hs ev hev
    cases a with
    | start =>
      rw [runActions_start_cons] at hev
      rcases start_fields s with ⟨_, h2, h3, h4⟩
      exact ih (StreamGenerator.start s) (by rw [h2, h3, h4]; exact hs) ev hev
    | stop =>
      rw [runActions_stop_cons] at hev
      exact ih (StreamGenerator.stop s) hs ev hev
    | subscribe cb =>
      rw [runActions_subscribe_cons] at hev
      exact ih (StreamGenerator.subscribe s cb) hs ev hev
    | tick r m =>
      rw [runActions_tick_cons] at hev
      rcases tick_counters s r m with ⟨c1, c2, c3⟩
      rcases tick_stats s r m with ⟨t1, t2, t3, _⟩
      have hinv : (StreamGenerator.tick s r m).state.totalReadings
          = (StreamGenerator.tick s r m).state.totalValid
            + (StreamGenerator.tick s r m).state.totalFraud := by
        rw [c1, c2, c3]
        by_cases hv : (evaluateReading r s.lastReading).status = InstantStatus.VALID <;>
          simp [hv] <;> omega
      rcases List.mem_cons.mp hev with hev1 | hev2
      · subst hev1
        rw [t1, t2, t3]
        by_cases hv : (evaluateReading r s.lastReading).status = InstantStatus.VALID <;>
          simp [hv] <;> omega
      · exact ih (StreamGenerator.tick s r m).state hinv ev hev2

/-- Every emitted event's status is VALID or FRAUD, so the two counts split the
event list. -/
theorem countP_status_split (evs : List StreamData) :
    evs.countP (fun ev => decide (ev.status = InstantStatus.VALID))
      + evs.countP (fun ev => decide (ev.status = InstantStatus.FRAUD))
      = evs.length := by
  induction evs with
  | nil => rfl
  | cons e rest ih =>
    rw [List.countP_cons, List.countP_cons, List.length_cons]
    cases h : e.status <;> simp [h] <;> omega

/-- One event is emitted per tick action. -/
theorem runActions_events_length (acts : List StreamGenerator.Action) :
    ∀ s : StreamGenerator.State,
      (StreamGenerator.runActions s acts).2.length = StreamGenerator.countTicks acts := by
  induction acts with
  | nil => intro s; rfl
  | cons a rest ih =>
    intro s
    cases a with
    | start => exact ih (StreamGenerator.start s)
    | stop => exact ih (StreamGenerator.stop s)
    | subscribe cb => exact ih (StreamGenerator.subscribe s cb)
    | tick r m =>
      rw [runActions_tick_cons, List.length_cons, ih]
      rfl

/-- C4: after any trace with N processed readings, total = N and
total = valid + fraud, where valid and fraud count exactly the VALID and FRAUD
verdicts among the emitted events; eviction never decrements a counter (total
always equals the full number of ticks), and every emitted event's stats
snapshot satisfies total = valid + fraud. -/
theorem claim_C4_counter_consistency (acts : List StreamGenerator.Action) :
    (StreamGenerator.runActions StreamGenerator.initial acts).1.totalReadings
      = StreamGenerator.countTicks acts ∧
    (StreamGenerator.runActions StreamGenerator.initial acts).1.totalReadings
      = (StreamGenerator.runActions StreamGenerator.initial acts).1.totalValid
        + (StreamGenerator.runActions StreamGenerator.initial acts).1.totalFraud ∧
    (StreamGenerator.runActions StreamGenerator.initial acts).1.totalValid
      = (StreamGenerator.runActions StreamGenerator.initial acts).2.countP
          (fun ev => decide (ev.status = InstantStatus.VALID)) ∧
    (StreamGenerator.runActions StreamGenerator.initial acts).1.totalFraud
      = (StreamGenerator.runActions StreamGenerator.initial acts).2.countP
          (fun ev => decide (ev.status = InstantStatus.FRAUD)) ∧
    ∀ ev ∈ (StreamGenerator.runActions StreamGenerator.initial acts).2,
      ev.stats.total = ev.stats.valid + ev.stats.fraud := by
  rcases runActions_counters acts StreamGenerator.initial with ⟨h1, h2, h3⟩
  have hsplit := countP_status_split (StreamGenerator.runActions StreamGenerator.initial acts).2
  have hevlen := runActions_events_length acts StreamGenerator.initial
  have hstats := runActions_stats acts StreamGenerator.initial rfl
  refine ⟨by rw [h1]; exact Nat.zero_add _, ?_,
    by rw [h2]; exact Nat.zero_add _, by rw [h3]; exact Nat.zero_add _, hstats⟩
  rw [h1, h2, h3]
  show 0 + _ = 0 + _ + (0 + _)
  omega

/-- C3: after more than 1000 ticks, the unlimited query returns exactly 1000
records — the 1000 most recently appended, most-recent-first (the reverse of
the append sequence, truncated to 1000) — and exactly one record was appended
per processed reading. -/
theorem claim_C3_capacity (inputs : List (StreamReading × RecordMeta))
    (h : 1000 < inputs.length) :
    StreamGenerator.getBlockchainRecords
        (StreamGenerator.runActions StreamGenerator.initial
          (StreamGenerator.ticksOf inputs)).1 none
      = (StreamGenerator.emittedRecords StreamGenerator.initial
          (StreamGenerator.ticksOf inputs)).reverse.take 1000 ∧
    (StreamGenerator.getBlockchainRecords
        (StreamGenerator.runActions StreamGenerator.initial
          (StreamGenerator.ticksOf inputs)).1 none).length = 1000 ∧
    (StreamGenerator.emittedRecords StreamGenerator.initial
        (StreamGenerator.ticksOf inputs)).length = inputs.length := by
  have hlen : (StreamGenerator.emittedRecords StreamGenerator.initial
      (StreamGenerator.ticksOf inputs)).length = inputs.length := by
    rw [emittedRecords_length, countTicks_ticksOf]
  have hlog : (StreamGenerator.runActions StreamGenerator.initial
        (StreamGenerator.ticksOf inputs)).1.blockchainRecords
      = (StreamGenerator.emittedRecords StreamGenerator.initial
          (StreamGenerator.ticksOf inputs)).drop
          ((StreamGenerator.emittedRecords StreamGenerator.initial
            (StreamGenerator.ticksOf inputs)).length - 1000) := by
    rw [runActions_log,
      foldl_pushBounded _ StreamGenerator.initial.blockchainRecords (by decide)]
    show (([] : List BlockchainRecord) ++ _).drop (([] : List BlockchainRecord).length + _ - 1000) = _
    rw [List.nil_append, List.length_nil, Nat.zero_add]
  have hq : StreamGenerator.getBlockchainRecords
      (StreamGenerator.runActions StreamGenerator.initial
        (StreamGenerator.ticksOf inputs)).1 none
      = ((StreamGenerator.runActions StreamGenerator.initial
          (StreamGenerator.ticksOf inputs)).1.blockchainRecords).reverse := rfl
  have h1 : StreamGenerator.getBlockchainRecords
      (StreamGenerator.runActions StreamGenerator.initial
        (StreamGenerator.ticksOf inputs)).1 none
      = (StreamGenerator.emittedRecords StreamGenerator.initial
          (StreamGenerator.ticksOf inputs)).reverse.take 1000 := by
    rw [hq, hlog, List.reverse_drop]
    have harith : (StreamGenerator.emittedRecords StreamGenerator.initial
        (StreamGenerator.ticksOf inputs)).length
        - ((StreamGenerator.emittedRecords StreamGenerator.initial
            (StreamGenerator.ticksOf inputs)).length - 1000) = 1000 := by omega
    rw [harith]
  refine ⟨h1, ?_, hlen⟩
  rw [h1, List.length_take, List.length_reverse]
  omega

/-- Closed instance of C3 at 1001 identical readings. -/
theorem claim_C3_capacity_witness :
    1000 < (List.replicate 1001
      ((⟨0, 230, 10, 0⟩ : StreamReading), (⟨"a", "t1", 5000000, 1⟩ : RecordMeta))).length ∧
    (StreamGenerator.getBlockchainRecords
        (StreamGenerator.runActions StreamGenerator.initial
          (StreamGenerator.ticksOf (List.replicate 1001
            ((⟨0, 230, 10, 0⟩ : StreamReading),
             (⟨"a", "t1", 5000000, 1⟩ : RecordMeta))))).1 none).length = 1000 :=
  ⟨by simp only [List.length_replicate]; decide,
    (claim_C3_capacity _ (by simp only [List.length_replicate]; decide)).2.1⟩
